import Mathlib

/-!
# Verification of the EPCalculator exponent-evaluation core

Shallow embedding, in exact real arithmetic, of the numeric core of the
EPCalculator repository:

* constellation generation and unit-power normalization
  (`exponents/gauss_hermite_python.py`, class `E0Calculator`);
* the 2D Gauss-Hermite quadrature grid (`compute_2d_quadrature_grid`);
* the Gallager `E0` evaluators (`E0Calculator.compute_E0` and the 2-PAM
  evaluator `compute_E0` of `exponents/optimize_E_of_R.py`);
* the smart `E(R)` optimizer (`compute_E_of_R_smart`) and the rho-keyed
  cache (`CachedE0Computer`);
* the Maxwell-Boltzmann shaping fixed point (`test_maxwell_fixedpoint.py`,
  `test_python_high_beta.py`);
* the query-parameter sanitizer of the request layer (`main.py`,
  `sanitize_query_param`).

Python floats are modelled as exact real numbers; `numpy` complex values as
`ℂ`.  The Gauss-Hermite rules returned by `scipy.special.roots_hermite` for
small `N` are given by their exact closed-form values.
-/

namespace EPCalc

open Real Complex

/-! ## Constellation generation
Source: `exponents/gauss_hermite_python.py`, `E0Calculator._generate_constellation`. -/

/-- Modulation family accepted by `_generate_constellation`. -/
inductive Family where
  | PAM
  | PSK
  | QAM
deriving DecidableEq

/-- PAM points: `2*i - (M-1)` for `i in range(M)`, as complex numbers
(source line 47). -/
noncomputable def pamPoints (M : ℕ) : List ℂ :=
  (List.range M).map (fun (i : ℕ) => ((2 * (i : ℝ) - ((M : ℝ) - 1) : ℝ) : ℂ))

/-- PSK points: `exp(1j * 2*pi*k/M)` for `k in range(M)` (source lines 51-52). -/
noncomputable def pskPoints (M : ℕ) : List ℂ :=
  (List.range M).map (fun (k : ℕ) =>
    Complex.exp ((2 * Real.pi * (k : ℝ) / (M : ℝ) : ℝ) * Complex.I))

/-- Square QAM points on the integer grid: for `side = int(sqrt(M))`,
`(2*i - (side-1)) + 1j*(2*j - (side-1))` for `i, j in range(side)`
(source lines 56-66). -/
noncomputable def qamPoints (M : ℕ) : List ℂ :=
  let side := Nat.sqrt M
  (List.range side).flatMap (fun (i : ℕ) =>
    (List.range side).map (fun (j : ℕ) =>
      ((2 * (i : ℝ) - ((side : ℝ) - 1) : ℝ) : ℂ)
        + ((2 * (j : ℝ) - ((side : ℝ) - 1) : ℝ) : ℂ) * Complex.I))

/-- Source `E0Calculator._generate_constellation`: QAM demands `side * side == M`
where `side = int(np.sqrt(M))` (floor square root), raising `ValueError`
otherwise; the raised exception is modelled as `Except.error`. -/
noncomputable def generateConstellation (M : ℕ) : Family → Except String (List ℂ)
  | Family.PAM => Except.ok (pamPoints M)
  | Family.PSK => Except.ok (pskPoints M)
  | Family.QAM =>
      let side := Nat.sqrt M
      if side * side = M then Except.ok (qamPoints M)
      else Except.error ("QAM requires M to be perfect square")

/-- Uniform probability vector `Q = np.ones(M) / M` (source line 31). -/
noncomputable def uniformQ (M : ℕ) : List ℝ :=
  List.replicate M (1 / (M : ℝ))

/-- Source `E0Calculator._average_power` specialized to the uniform `Q[i] = 1/M`
that the class installs: `sum(Q * abs(X)**2) = (sum |X[i]|^2) / M`. -/
noncomputable def averagePower (X : List ℂ) (M : ℕ) : ℝ :=
  (X.map (fun x => Complex.normSq x)).sum / (M : ℝ)

/-- Source `E0Calculator._normalize_constellation`: divide every point by
`sqrt(avg_power)` (source lines 75-79). -/
noncomputable def normalizeConstellation (X : List ℂ) (M : ℕ) : List ℂ :=
  X.map (fun x => x / ((Real.sqrt (averagePower X M) : ℝ) : ℂ))

/-! ## 2D Gauss-Hermite quadrature grid
Source: `E0Calculator.compute_2d_quadrature_grid` (lines 92-126). -/

/-- Cartesian product of a 1D rule with itself: nodes `z = x + 1j*y`,
weights `wx * wy` (source lines 110-115).  The source only prints the
weight sum; there is no invariant check and no failure path. -/
noncomputable def grid2D (rule : List (ℝ × ℝ)) : List (ℂ × ℝ) :=
  rule.flatMap (fun p =>
    rule.map (fun q => (((p.1 : ℝ) : ℂ) + ((q.1 : ℝ) : ℂ) * Complex.I, p.2 * q.2)))

/-- Total weight of a 1D rule. -/
def weightSum1 (rule : List (ℝ × ℝ)) : ℝ :=
  (rule.map (fun p => p.2)).sum

/-- Total weight of a 2D grid. -/
def weightSum2 (grid : List (ℂ × ℝ)) : ℝ :=
  (grid.map (fun p => p.2)).sum

/-- Model of `scipy.special.roots_hermite(1)`: the single Gauss-Hermite node is the
root `0` of `H1(t) = 2t`, with weight `sqrt(pi)`. -/
noncomputable def hermiteRule1 : List (ℝ × ℝ) :=
  [(0, Real.sqrt Real.pi)]

/-- Model of `scipy.special.roots_hermite(2)`: the Gauss-Hermite nodes are the roots
`±sqrt(1/2)` of `H2(t) = 4t^2 - 2`, each with weight `sqrt(pi)/2`. -/
noncomputable def hermiteRule2 : List (ℝ × ℝ) :=
  [(-Real.sqrt (1/2), Real.sqrt Real.pi / 2), (Real.sqrt (1/2), Real.sqrt Real.pi / 2)]

/-! ## The general E0 evaluator
Source: `E0Calculator.compute_E0` (`exponents/gauss_hermite_python.py`,
lines 128-184).  The constellation is passed as the list of pairs
`(X[i], Q[i])` that the source iterates with `enumerate` and index access. -/

/-- The integrand factor `f(z, x, rho) = exp(|z|^2/(1+rho)) * sum_xbar Q(xbar) *
exp(-|z + sqrt(SNR)*(x - xbar)|^2 / (1+rho))` (source lines 152-165). -/
noncomputable def fValGH (XQ : List (ℂ × ℝ)) (SNR rho : ℝ) (z x : ℂ) : ℝ :=
  Real.exp (Complex.normSq z / (1 + rho)) *
    (XQ.map (fun xb =>
      xb.2 * Real.exp (-(Complex.normSq (z + ((Real.sqrt SNR : ℝ) : ℂ) * (x - xb.1)))
        / (1 + rho)))).sum

/-- Inner quadrature sum for one transmitted symbol `x`:
`sum_k w_k * exp(-|z_k|^2) * f(z_k, x, rho)^rho` (source lines 148-170).
Note the source multiplies the explicit factor `exp(-|z|^2)` into the
integrand even though the Gauss-Hermite weights already carry it. -/
noncomputable def innerSumGH (XQ : List (ℂ × ℝ)) (SNR rho : ℝ)
    (grid : List (ℂ × ℝ)) (x : ℂ) : ℝ :=
  (grid.map (fun zw =>
    zw.2 * (Real.exp (-(Complex.normSq zw.1)) * (fValGH XQ SNR rho zw.1 x) ^ rho))).sum

/-- Source `E0Calculator.compute_E0`: `outer = sum_x Q(x) * inner_x / pi`;
`E0 = -log2(outer)`, with `np.log2 t = log t / log 2` (lines 172-179). -/
noncomputable def computeE0gh (XQ : List (ℂ × ℝ)) (SNR rho : ℝ)
    (grid : List (ℂ × ℝ)) : ℝ :=
  let outer := (XQ.map (fun xq => xq.2 * (innerSumGH XQ SNR rho grid xq.1 / Real.pi))).sum;
  -(Real.log outer / Real.log 2)

/-! ## Exponent clamping
`exponents/comprehensive_comparison.py` clamps every exponent argument with
`np.clip(delta, -500, 500)` before exponentiation (lines 44-45, 57-58, 90);
`E0Calculator.compute_E0` applies `np.exp` directly with no clamping. -/

/-- Numpy clip: `np.clip(x, lo, hi) = min(max(x, lo), hi)`. -/
def clip (x lo hi : ℝ) : ℝ :=
  min (max x lo) hi

/-- The spec's clamped variant of `fValGH`: every exponent argument passes
through `clip (-500) 500` before `exp`.  Stated from the spec's
numerical-safety rule, for comparison against the unclamped source. -/
noncomputable def fValGHClamped (XQ : List (ℂ × ℝ)) (SNR rho : ℝ) (z x : ℂ) : ℝ :=
  Real.exp (clip (Complex.normSq z / (1 + rho)) (-500) 500) *
    (XQ.map (fun xb =>
      xb.2 * Real.exp (clip (-(Complex.normSq (z + ((Real.sqrt SNR : ℝ) : ℂ) * (x - xb.1)))
        / (1 + rho)) (-500) 500))).sum

/-- Clamped variant of `innerSumGH` (spec's numerical-safety rule). -/
noncomputable def innerSumGHClamped (XQ : List (ℂ × ℝ)) (SNR rho : ℝ)
    (grid : List (ℂ × ℝ)) (x : ℂ) : ℝ :=
  (grid.map (fun zw =>
    zw.2 * (Real.exp (clip (-(Complex.normSq zw.1)) (-500) 500) *
      (fValGHClamped XQ SNR rho zw.1 x) ^ rho))).sum

/-- Clamped variant of `computeE0gh` (spec's numerical-safety rule): what
`compute_E0` would return if every exponent argument were clamped. -/
noncomputable def computeE0ghClamped (XQ : List (ℂ × ℝ)) (SNR rho : ℝ)
    (grid : List (ℂ × ℝ)) : ℝ :=
  let outer := (XQ.map (fun xq =>
    xq.2 * (innerSumGHClamped XQ SNR rho grid xq.1 / Real.pi))).sum;
  -(Real.log outer / Real.log 2)

/-! ## The 2-PAM E0 evaluator and smart E(R) optimizer
Source: `exponents/optimize_E_of_R.py`. -/

/-- Source `compute_E0(rho, SNR, N)` of `optimize_E_of_R.py` (lines 14-33):
2-PAM with `SNR_eff = 2*SNR`, `sigma_sq = 1/SNR_eff`, `z = sqrt(2*sigma_sq)*t`,
`delta = -(z + x - x_bar)^2 + z^2`, inner sum over `x_bar in [-1, +1]` of
`0.5 * exp(delta / (2*sigma_sq*(1+rho)))`, `I_x = sum_t w * inner^rho`,
`I_total = (0.5*I_{-1} + 0.5*I_{+1}) / sqrt(pi)`, `E0 = -log2(I_total)`. -/
noncomputable def computeE0opt (rho SNR : ℝ) (rule : List (ℝ × ℝ)) : ℝ :=
  let SNReff := 2 * SNR
  let sigmaSq := 1 / SNReff
  let Itotal :=
    (([(-1 : ℝ), 1]).map (fun x =>
      (1/2) * (rule.map (fun tw =>
        let z := Real.sqrt (2 * sigmaSq) * tw.1
        tw.2 * ((([(-1 : ℝ), 1]).map (fun xb =>
          (1/2) * Real.exp ((-(z + x - xb)^2 + z^2) / (2 * sigmaSq * (1 + rho))))).sum) ^ rho)).sum)).sum
      / Real.sqrt Real.pi;
  -(Real.log Itotal / Real.log 2)

/-- Source `compute_E_of_R_smart(R, SNR, N)` (lines 55-88): evaluate `E0(0)` and
`E0(1)` (two evaluations), return `(E0(1) - R, 1.0)` if `E0(1) - R >= E0(0)`,
else `(E0(0), 0.0)` if `E0(0) >= E0(1) - R`; only if both comparisons fail
would the source run `minimize_scalar` over the interior — that fallback is
modelled by the `interior` argument.  The third component is the number of
`E0` evaluations consumed (`eval_count`). -/
noncomputable def computeEofRsmart (R SNR : ℝ) (rule : List (ℝ × ℝ))
    (interior : ℝ × ℝ × ℕ) : ℝ × ℝ × ℕ :=
  let E0at0 := computeE0opt 0 SNR rule
  let E0at1 := computeE0opt 1 SNR rule
  if E0at1 - R ≥ E0at0 then (E0at1 - R, 1, 2)
  else if E0at0 ≥ E0at1 - R then (E0at0, 0, 2)
  else interior

/-! ## The rho-keyed E0 cache
Source: `CachedE0Computer` (`optimize_E_of_R.py`, lines 94-112).  The value
type is abstract (`alpha`); the source stores Python floats.  `round(rho, 6)`
is modelled by rounding `rho * 10^6` to the nearest integer (Python rounds
halves to even, but an exact half never arises for binary floats, so the
tie-breaking rule is unobservable). -/

/-- Python `round(rho, 6)` on the request `rho`. -/
def round6 (q : ℚ) : ℚ :=
  ((round (q * 1000000) : ℤ) : ℚ) / 1000000

/-- State of a `CachedE0Computer`: the `E0_cache` dict (an association list
keyed by the rounded rho) and `eval_count`. -/
structure E0Cache (α : Type) where
  cache : List (ℚ × α)
  evalCount : ℕ

/-- Dict access: `self.E0_cache[rho_key]` guarded by
`rho_key not in self.E0_cache`. -/
def cacheLookup {α : Type} (key : ℚ) : List (ℚ × α) → Option α
  | [] => Option.none
  | (k, v) :: rest => if key = k then some v else cacheLookup key rest

/-- Source `CachedE0Computer.compute_E0_cached` (lines 103-112): look up
`round(rho, 6)`; on a miss, evaluate `E0(rho)`, store it under the rounded
key and bump `eval_count`. -/
def computeE0cached {α : Type} (E0fun : ℚ → α) (st : E0Cache α) (rho : ℚ) :
    α × E0Cache α :=
  let key := round6 rho
  match cacheLookup key st.cache with
  | some v => (v, st)
  | none => (E0fun rho, ⟨(key, E0fun rho) :: st.cache, st.evalCount + 1⟩)

/-! ## Maxwell-Boltzmann shaping fixed point
Source: `test_maxwell_fixedpoint.py` (lines 51-74) and
`test_python_high_beta.py` (lines 46-87). -/

/-- Probabilities `Q_i = exp(-beta * s^2 * e_i) / sum_j exp(-beta * s^2 * e_j)`
over the pattern energies `e_i = |p_i|^2` (source lines 53-55). -/
noncomputable def maxwellQ (beta s : ℝ) (energies : List ℝ) : List ℝ :=
  let u := energies.map (fun e => Real.exp (-(beta * s ^ 2 * e)))
  u.map (fun q => q / u.sum)

/-- One update of the scale: `s_new = 1 / sqrt(sum_i Q_i * e_i)` (lines 58-61). -/
noncomputable def fixedStep (beta : ℝ) (energies : List ℝ) (s : ℝ) : ℝ :=
  let Q := maxwellQ beta s energies
  1 / Real.sqrt (((Q.zip energies).map (fun p => p.1 * p.2)).sum)

/-- The probability vector reported after `iters` fixed-point updates from
`s0`: the source recomputes `Q` from the final scaled constellation
(`test_python_high_beta.py` lines 84-87), i.e. `exp(-beta*|s*p_i|^2)/sum`,
which is `maxwellQ beta s` at the final `s`. -/
noncomputable def shapeFinalQ (beta : ℝ) (energies : List ℝ) (iters : ℕ)
    (s0 : ℝ) : List ℝ :=
  maxwellQ beta ((fixedStep beta energies)^[iters] s0) energies

/-! ## Query-parameter sanitizing in the request layer
Source: `main.py`, `sanitize_query_param` (lines 287-297). -/

/-- A Python float: a finite value, a signed infinity, or NaN. -/
inductive PyFloat where
  | finite (q : ℚ)
  | inf
  | negInf
  | nan
deriving DecidableEq

/-- A query-parameter value as received by `sanitize_query_param`:
`None`, a string, or an already-numeric float. -/
inductive PyVal where
  | none
  | str (s : String)
  | num (x : PyFloat)
deriving DecidableEq

/-- The sentinel strings of `sanitize_query_param` (line 289). -/
def sentinelStrings : List String :=
  ["unknown", "undefined", "", "none", "null", "nan"]

/-- Python `str.lower()`, character by character. -/
def pyLower (s : String) : String :=
  String.mk (s.data.map Char.toLower)

/-- The test `value is None or str(value).lower() in [...]` (line 289),
case by case: `str(nan) = "nan"` is a sentinel; `str(inf) = "inf"` and
`str(-inf) = "-inf"` are not; the decimal form `str(q)` of a finite float
is never one of the six sentinel strings. -/
def isSentinel : PyVal → Bool
  | PyVal.none => true
  | PyVal.str s => pyLower s ∈ sentinelStrings
  | PyVal.num PyFloat.nan => true
  | PyVal.num _ => false

/-- Source `sanitize_query_param(value, default)` for a numeric target (lines
287-297): sentinel inputs yield the default; otherwise `float(value)` is
attempted — identity on floats, string parsing `conv` on strings (a raised
`ValueError`/`TypeError`, i.e. `conv s = none`, yields the default).
The function always returns a value; it has no error path. -/
def sanitizeQueryParam (conv : String → Option PyFloat) (value : PyVal)
    (default : PyFloat) : PyFloat :=
  if isSentinel value then default
  else
    match value with
    | PyVal.none => default
    | PyVal.str s => (conv s).getD default
    | PyVal.num x => x

/-- The 2-PAM constellation as the `E0Calculator` constructs it: generated,
normalized, and zipped with the uniform probabilities. -/
noncomputable def pam2XQ : List (ℂ × ℝ) :=
  (normalizeConstellation (pamPoints 2) 2).zip (uniformQ 2)

/-! ## Helper lemmas -/

/-- At `beta = 0` the Maxwell-Boltzmann weights are all `exp 0 = 1`, so the
normalized probabilities are uniform, whatever the scale `s`. -/
lemma maxwellQ_beta_zero (s : ℝ) (energies : List ℝ) :
    maxwellQ 0 s energies = List.replicate energies.length (1 / (energies.length : ℝ)) := by
  have hu : energies.map (fun e => Real.exp (-(0 * s ^ 2 * e))) =
      List.replicate energies.length 1 := by
    simp
  show (energies.map (fun e => Real.exp (-(0 * s ^ 2 * e)))).map
      (fun q => q / (energies.map (fun e => Real.exp (-(0 * s ^ 2 * e)))).sum) = _
  rw [hu, List.sum_replicate, List.map_replicate]
  simp [nsmul_eq_mul]

/-- A list of `normSq` values has a nonnegative sum. -/
lemma sum_normSq_nonneg (X : List ℂ) : 0 ≤ (X.map Complex.normSq).sum := by
  apply List.sum_nonneg
  intro x hx
  obtain ⟨z, _, rfl⟩ := List.mem_map.1 hx
  exact Complex.normSq_nonneg z

/-! ## C9 — shaping with beta = 0 gives the uniform distribution -/

/-- C9: for every raw pattern (via its energy list), every iteration count
and every starting scale, the shaping routine at `beta = 0` returns exactly
the uniform probability vector `Q[i] = 1/M` — the same `uniformQ` that the
unshaped `E0Calculator` installs. -/
theorem C9_shape_beta_zero_uniform (energies : List ℝ) (iters : ℕ) (s0 : ℝ) :
    shapeFinalQ 0 energies iters s0 = uniformQ energies.length := by
  unfold shapeFinalQ uniformQ
  exact maxwellQ_beta_zero _ _

/-! ## C10 — the E0 cache is keyed by rho rounded to 6 decimals -/

/-- C10: two requests whose rhos agree after rounding to 6 decimal places hit
the same cache slot: the second request returns exactly the value produced by
the first one and performs no new `E0` evaluation (same `eval_count`, same
cache). -/
theorem C10_cache_keyed_by_round6 {α : Type} (E0fun : ℚ → α) (st : E0Cache α)
    (rho1 rho2 : ℚ) (h : round6 rho1 = round6 rho2) :
    (computeE0cached E0fun (computeE0cached E0fun st rho1).2 rho2).1 =
        (computeE0cached E0fun st rho1).1 ∧
      (computeE0cached E0fun (computeE0cached E0fun st rho1).2 rho2).2 =
        (computeE0cached E0fun st rho1).2 := by
  unfold computeE0cached
  rw [← h]
  rcases hl : cacheLookup (round6 rho1) st.cache with _ | v
  · simp only [hl, cacheLookup, if_pos rfl]
    exact ⟨rfl, rfl⟩
  · simp [hl]

/-- Witness for C10: `rho1 = 0.3333333` and `rho2 = 0.333333` round to the
same 6-decimal key although they differ by `3e-7`; on a fresh cache the
second request returns the value computed for `rho1`. -/
theorem C10_cache_keyed_by_round6_witness :
    round6 (3333333/10000000) = round6 (333333/1000000) ∧
      (computeE0cached (fun q : ℚ => q)
          ((computeE0cached (fun q : ℚ => q) ⟨[], 0⟩ (3333333/10000000)).2)
          (333333/1000000)).1 = 3333333/10000000 := by
  have h : round6 ((3333333 : ℚ)/10000000) = round6 (333333/1000000) := by
    unfold round6
    norm_num [round_eq]
  refine ⟨h, ?_⟩
  rw [(C10_cache_keyed_by_round6 (fun q : ℚ => q) ⟨[], 0⟩ _ _ h).1]
  rfl

/-! ## C6 — the request layer substitutes defaults, it never raises -/

/-- Counterexample to C6 as stated: `sanitize_query_param` never raises
`InvalidParameter`.  On a NaN SNR it silently substitutes the default
(here `1.0`), and a negative SNR `-5.0` is passed through unrejected. -/
theorem C6_counterexample_default_substituted :
    sanitizeQueryParam (fun _ => Option.none) (PyVal.num PyFloat.nan)
        (PyFloat.finite 1) = PyFloat.finite 1 ∧
      sanitizeQueryParam (fun _ => Option.none) (PyVal.num (PyFloat.finite (-5)))
        (PyFloat.finite 1) = PyFloat.finite (-5) := by
  exact ⟨rfl, rfl⟩

/-- C6 amended: `sanitize_query_param` is total and never reports an error:
NaN floats and `None` (and every sentinel string, and every unparseable
string) are silently replaced by the default, while every other float —
including negative and infinite SNR values — is passed through unchanged
to the C++ call. -/
theorem C6_sanitize_never_raises (conv : String → Option PyFloat) (d : PyFloat) :
    sanitizeQueryParam conv (PyVal.num PyFloat.nan) d = d ∧
      (∀ q : ℚ, sanitizeQueryParam conv (PyVal.num (PyFloat.finite q)) d =
        PyFloat.finite q) ∧
      sanitizeQueryParam conv (PyVal.num PyFloat.inf) d = PyFloat.inf ∧
      sanitizeQueryParam conv (PyVal.num PyFloat.negInf) d = PyFloat.negInf ∧
      sanitizeQueryParam conv PyVal.none d = d ∧
      (∀ s, isSentinel (PyVal.str s) = true →
        sanitizeQueryParam conv (PyVal.str s) d = d) ∧
      (∀ s, isSentinel (PyVal.str s) = false →
        sanitizeQueryParam conv (PyVal.str s) d = (conv s).getD d) := by
  refine ⟨rfl, fun q => rfl, rfl, rfl, rfl, fun s hs => ?_, fun s hs => ?_⟩
  · simp [sanitizeQueryParam, hs]
  · simp [sanitizeQueryParam, hs]

/-- Witness for C6 amended: the sentinel `"unknown"` and the unparseable
`"abc"` both produce the default. -/
theorem C6_sanitize_never_raises_witness :
    sanitizeQueryParam (fun _ => Option.none) (PyVal.str ("unknown"))
        (PyFloat.finite 1) = PyFloat.finite 1 ∧
      sanitizeQueryParam (fun _ => Option.none) (PyVal.str ("abc"))
        (PyFloat.finite 1) = (Option.none.getD (PyFloat.finite 1)) := by
  exact ⟨(C6_sanitize_never_raises (fun _ => Option.none) (PyFloat.finite 1)).2.2.2.2.2.1
      ("unknown") (by decide),
    (C6_sanitize_never_raises (fun _ => Option.none) (PyFloat.finite 1)).2.2.2.2.2.2
      ("abc") (by decide)⟩

/-- Evaluation `Nat.sqrt 12 = 3`, needed to reject `M = 12`. -/
lemma sqrt_twelve : Nat.sqrt 12 = 3 :=
  (Nat.eq_sqrt.2 (by norm_num)).symm

/-! ## C5 — QAM requires a perfect-square order -/

/-- C5: `_generate_constellation` with family QAM fails with the modelled
`InvalidParameter` (`ValueError`) exactly on non-perfect-square `M` and
succeeds on perfect squares; the function is total, so there is no crash
and no fallback to another constellation. -/
theorem C5_qam_perfect_square (M : ℕ) :
    (Nat.sqrt M * Nat.sqrt M = M ↔ ∃ L, L * L = M) ∧
      (¬(∃ L, L * L = M) →
        generateConstellation M Family.QAM =
          Except.error ("QAM requires M to be perfect square")) ∧
      (∀ L, 2 ≤ L → L * L = M →
        generateConstellation M Family.QAM = Except.ok (qamPoints M)) := by
  have hiff : Nat.sqrt M * Nat.sqrt M = M ↔ ∃ L, L * L = M :=
    ⟨fun h => ⟨Nat.sqrt M, h⟩, fun ⟨L, hL⟩ => by rw [← hL, Nat.sqrt_eq]⟩
  refine ⟨hiff, fun hne => ?_, fun L _ hL => ?_⟩
  · unfold generateConstellation
    rw [if_neg (fun hc => hne (hiff.1 hc))]
  · unfold generateConstellation
    rw [if_pos (hiff.2 ⟨L, hL⟩)]

/-- Witness for C5: `M = 12` (not a square) is rejected with the error,
`M = 16 = 4*4` succeeds. -/
theorem C5_qam_perfect_square_witness :
    generateConstellation 12 Family.QAM =
        Except.error ("QAM requires M to be perfect square") ∧
      generateConstellation 16 Family.QAM = Except.ok (qamPoints 16) := by
  constructor
  · exact (C5_qam_perfect_square 12).2.1
      (fun hex => absurd ((C5_qam_perfect_square 12).1.2 hex)
        (by rw [sqrt_twelve]; norm_num))
  · exact (C5_qam_perfect_square 16).2.2 4 (by norm_num) (by norm_num)

/-! ## C7 — 2D weight sum is the square of the 1D sum; no invariant check -/

/-- Summing the products `p.2 * q.2` over a Cartesian product of two lists
factors into the product of the two weight sums. -/
lemma sum_prod_snd (l1 l2 : List (ℝ × ℝ)) (f : ℝ × ℝ → ℝ × ℝ → ℂ) :
    ((l1.flatMap (fun p => l2.map (fun q => (f p q, p.2 * q.2)))).map
        (fun p => p.2)).sum =
      (l1.map (fun p => p.2)).sum * (l2.map (fun p => p.2)).sum := by
  induction l1 with
  | nil => simp
  | cons p rs ih =>
      simp only [List.flatMap_cons, List.map_append, List.sum_append, ih,
        List.map_map, List.map_cons, List.sum_cons]
      have hrow : (l2.map ((fun r : ℂ × ℝ => r.2) ∘ fun q : ℝ × ℝ =>
          (f p q, p.2 * q.2))).sum = p.2 * (l2.map (fun r : ℝ × ℝ => r.2)).sum := by
        rw [show ((fun r : ℂ × ℝ => r.2) ∘ fun q : ℝ × ℝ => (f p q, p.2 * q.2)) =
          fun q : ℝ × ℝ => p.2 * q.2 from rfl]
        exact List.sum_map_mul_left l2 (fun q => q.2) p.2
      rw [hrow]
      ring

/-- The 2D product grid's total weight is the square of the 1D total. -/
lemma weightSum2_grid2D (rule : List (ℝ × ℝ)) :
    weightSum2 (grid2D rule) = weightSum1 rule * weightSum1 rule := by
  unfold weightSum2 grid2D weightSum1
  exact sum_prod_snd rule rule _

/-- Counterexample to C7 as stated: `compute_2d_quadrature_grid` has no
failure path.  Fed a degenerate 1D rule whose weight does not sum to
`sqrt(pi)` (so the 2D invariant is violated), it still returns the product
grid — there is no `QuadratureInvariantViolation`. -/
theorem C7_counterexample_no_failure :
    weightSum1 [((0 : ℝ), (0 : ℝ))] ≠ Real.sqrt Real.pi ∧
      grid2D [((0 : ℝ), (0 : ℝ))] =
        [(((0 : ℝ) : ℂ) + ((0 : ℝ) : ℂ) * Complex.I, (0 : ℝ) * (0 : ℝ))] := by
  constructor
  · simp only [weightSum1, List.map_cons, List.map_nil, List.sum_cons,
      List.sum_nil, add_zero]
    exact fun h0 => (Real.sqrt_pos.mpr Real.pi_pos).ne h0
  · rfl

/-- C7 amended: the 2D weight sum equals the square of the 1D weight sum —
hence exactly `pi` whenever the 1D rule sums to `sqrt(pi)` — but the
construction performs no check and returns the product grid unconditionally,
with no `QuadratureInvariantViolation` path. -/
theorem C7_weight_sum_square (rule : List (ℝ × ℝ)) :
    weightSum2 (grid2D rule) = weightSum1 rule * weightSum1 rule ∧
      (weightSum1 rule = Real.sqrt Real.pi → weightSum2 (grid2D rule) = Real.pi) := by
  refine ⟨weightSum2_grid2D rule, fun h1 => ?_⟩
  rw [weightSum2_grid2D, h1, Real.mul_self_sqrt Real.pi_nonneg]

/-- Witness for C7 amended: the 1-node Gauss-Hermite rule sums to
`sqrt(pi)` and its 2D product grid's weights sum to `pi`. -/
theorem C7_weight_sum_square_witness :
    weightSum1 hermiteRule1 = Real.sqrt Real.pi ∧
      weightSum2 (grid2D hermiteRule1) = Real.pi := by
  have h1 : weightSum1 hermiteRule1 = Real.sqrt Real.pi := by
    simp [weightSum1, hermiteRule1]
  exact ⟨h1, (C7_weight_sum_square hermiteRule1).2 h1⟩

/-! ## C2 and C3 — the smart E(R) optimizer -/

/-- The value returned by `compute_E_of_R_smart` is always
`max (E0(1) - R) (E0(0))`: the two boundary checks are exhaustive over a
linear order, so the interior-search fallback is unreachable. -/
lemma computeEofRsmart_fst (R SNR : ℝ) (rule : List (ℝ × ℝ))
    (interior : ℝ × ℝ × ℕ) :
    (computeEofRsmart R SNR rule interior).1 =
      max (computeE0opt 1 SNR rule - R) (computeE0opt 0 SNR rule) := by
  simp only [computeEofRsmart]
  split_ifs with h1 h2
  · exact (max_eq_left h1).symm
  · exact (max_eq_right h2).symm
  · exfalso
    push_neg at h1 h2
    linarith

/-- C2: `E(R)` as returned by `compute_E_of_R_smart` is non-increasing in
the rate: for any two rates `R1 < R2` (same constellation, SNR and rule),
the value at `R2` is at most the value at `R1`, whatever the interior
fallbacks would have produced. -/
theorem C2_E_of_R_nonincreasing (SNR : ℝ) (rule : List (ℝ × ℝ)) (R1 R2 : ℝ)
    (i1 i2 : ℝ × ℝ × ℕ) (h : R1 < R2) :
    (computeEofRsmart R2 SNR rule i2).1 ≤ (computeEofRsmart R1 SNR rule i1).1 := by
  rw [computeEofRsmart_fst, computeEofRsmart_fst]
  exact max_le_max (by linarith) le_rfl

/-- Witness for C2 at `SNR = 4`, the 1-node rule and rates `0 < 1`. -/
theorem C2_E_of_R_nonincreasing_witness :
    (computeEofRsmart 1 4 hermiteRule1 (0, 0, 0)).1 ≤
      (computeEofRsmart 0 4 hermiteRule1 (0, 0, 0)).1 :=
  C2_E_of_R_nonincreasing 4 hermiteRule1 0 1 (0, 0, 0) (0, 0, 0) (by norm_num)

/-- C3: `compute_E_of_R_smart` evaluates only the two boundary values; if
`E0(1) - R >= E0(0)` it returns `(E0(1) - R, rho* = 1)` after exactly 2
`E0` evaluations and independently of the interior search, and when the
`rho = 0` boundary strictly dominates it returns `(E0(0), 0)` likewise. -/
theorem C3_boundary_shortcut (R SNR : ℝ) (rule : List (ℝ × ℝ))
    (interior : ℝ × ℝ × ℕ) :
    (computeE0opt 1 SNR rule - R ≥ computeE0opt 0 SNR rule →
      computeEofRsmart R SNR rule interior = (computeE0opt 1 SNR rule - R, 1, 2)) ∧
      (computeE0opt 0 SNR rule > computeE0opt 1 SNR rule - R →
        computeEofRsmart R SNR rule interior = (computeE0opt 0 SNR rule, 0, 2)) := by
  constructor
  · intro h1
    simp only [computeEofRsmart]
    rw [if_pos h1]
  · intro h2
    simp only [computeEofRsmart]
    rw [if_neg (not_le.mpr h2), if_pos h2.le]

/-- Closed form of the 2-PAM `E0` on the 1-node rule at `SNR = 4`: the single
node sits at `z = 0`, so the integrand collapses to
`(1/2 + 1/2 * exp(-16/(1+rho)))^rho`. -/
lemma computeE0opt_her1 (rho : ℝ) :
    computeE0opt rho 4 hermiteRule1 =
      -(Real.log ((1/2 + 1/2 * Real.exp (-16/(1+rho))) ^ rho) / Real.log 2) := by
  have hπ : Real.sqrt Real.pi ≠ 0 := Real.sqrt_ne_zero'.mpr Real.pi_pos
  have harg : ((1 : ℝ)/4 + rho * (1/4))⁻¹ * 4 = (1 + rho)⁻¹ * 16 := by
    rw [show ((1 : ℝ)/4 + rho * (1/4)) = (1 + rho)/4 by ring, inv_div]
    ring
  have hcancel : ∀ a : ℝ, Real.sqrt Real.pi * a * (Real.sqrt Real.pi)⁻¹ = a := by
    intro a
    rw [mul_comm (Real.sqrt Real.pi) a, mul_assoc, mul_inv_cancel₀ hπ, mul_one]
  simp only [computeE0opt, hermiteRule1, List.map_cons, List.map_nil,
    List.sum_cons, List.sum_nil, add_zero, mul_zero, zero_mul]
  norm_num
  ring_nf
  rw [harg, hcancel]
  ring

/-- Value `E0(0) = 0` for the 2-PAM evaluator on the 1-node rule at `SNR = 4`. -/
lemma computeE0opt_zero_her1 : computeE0opt 0 4 hermiteRule1 = 0 := by
  rw [computeE0opt_her1, Real.rpow_zero, Real.log_one]
  simp

/-- Bound `E0(1) >= 0` for the 2-PAM evaluator on the 1-node rule at `SNR = 4`. -/
lemma computeE0opt_one_her1_nonneg : 0 ≤ computeE0opt 1 4 hermiteRule1 := by
  rw [computeE0opt_her1, Real.rpow_one]
  have hev : Real.exp (-16/(1+1) : ℝ) ≤ 1 := by
    rw [show ((-16)/(1+1) : ℝ) = -8 by norm_num]
    calc Real.exp (-8) ≤ Real.exp 0 := Real.exp_le_exp.mpr (by norm_num)
    _ = 1 := Real.exp_zero
  have hv0 : (0 : ℝ) ≤ 1/2 + 1/2 * Real.exp (-16/(1+1)) := by positivity
  have hv1 : (1/2 + 1/2 * Real.exp (-16/(1+1)) : ℝ) ≤ 1 := by linarith
  have hlog : Real.log (1/2 + 1/2 * Real.exp (-16/(1+1))) ≤ 0 :=
    Real.log_nonpos hv0 hv1
  have hl2 : (0 : ℝ) ≤ Real.log 2 := Real.log_nonneg (by norm_num)
  have hq : Real.log (1/2 + 1/2 * Real.exp (-16/(1+1))) / Real.log 2 ≤ 0 :=
    div_nonpos_of_nonpos_of_nonneg hlog hl2
  linarith

/-- Bound `E0(1) < 1` for the 2-PAM evaluator on the 1-node rule at
`SNR = 4`. -/
lemma computeE0opt_one_her1_lt_one : computeE0opt 1 4 hermiteRule1 < 1 := by
  rw [computeE0opt_her1, Real.rpow_one]
  have h2 : (0 : ℝ) < Real.log 2 := Real.log_pos (by norm_num)
  have hhalf : (1/2 : ℝ) < 1/2 + 1/2 * Real.exp (-16/(1+1)) := by
    have := Real.exp_pos (-16/(1+1) : ℝ)
    linarith
  have hlog : Real.log (1/2) < Real.log (1/2 + 1/2 * Real.exp (-16/(1+1))) :=
    Real.log_lt_log (by norm_num) hhalf
  have hl2 : Real.log (1/2 : ℝ) = -Real.log 2 := by
    rw [show (1/2 : ℝ) = 2⁻¹ by norm_num, Real.log_inv]
  have hneg : -Real.log (1/2 + 1/2 * Real.exp (-16/(1+1))) < Real.log 2 := by
    linarith
  rw [show -(Real.log (1/2 + 1/2 * Real.exp (-16/(1+1))) / Real.log 2) =
    (-Real.log (1/2 + 1/2 * Real.exp (-16/(1+1)))) / Real.log 2 by ring]
  exact (div_lt_one h2).mpr hneg

/-- Witness for C3, both branches: at `SNR = 4` on the 1-node rule, with
`R = 0` the `rho = 1` boundary dominates and the shortcut returns
`(E0(1) - R, 1, 2)`; with `R = 1` the `rho = 0` boundary strictly dominates
and it returns `(E0(0), 0, 2)` — in both cases ignoring the interior
fallback. -/
theorem C3_boundary_shortcut_witness :
    computeEofRsmart 0 4 hermiteRule1 (0, 0, 0) =
        (computeE0opt 1 4 hermiteRule1 - 0, 1, 2) ∧
      computeEofRsmart 1 4 hermiteRule1 (0, 0, 0) =
        (computeE0opt 0 4 hermiteRule1, 0, 2) :=
  ⟨(C3_boundary_shortcut 0 4 hermiteRule1 (0, 0, 0)).1
      (by rw [computeE0opt_zero_her1, sub_zero]; exact computeE0opt_one_her1_nonneg),
    (C3_boundary_shortcut 1 4 hermiteRule1 (0, 0, 0)).2
      (by rw [computeE0opt_zero_her1]
          have := computeE0opt_one_her1_lt_one
          linarith)⟩

/-! ## C4 — unit-power normalization -/

/-- Normalizing by `sqrt(avg_power)` yields average power exactly 1 whenever
the raw power sum is positive. -/
lemma averagePower_normalize (X : List ℂ) (M : ℕ) (hM : (M : ℝ) ≠ 0)
    (hs : 0 < (X.map Complex.normSq).sum) :
    averagePower (normalizeConstellation X M) M = 1 := by
  have hP : 0 < averagePower X M := by
    unfold averagePower
    positivity
  unfold averagePower normalizeConstellation
  rw [List.map_map]
  have hfun : (Complex.normSq ∘ fun x : ℂ =>
      x / ((Real.sqrt (averagePower X M) : ℝ) : ℂ)) =
      fun x : ℂ => Complex.normSq x * (averagePower X M)⁻¹ := by
    funext x
    simp only [Function.comp_apply, div_eq_mul_inv, Complex.normSq_mul,
      Complex.normSq_inv, Complex.normSq_ofReal, Real.mul_self_sqrt hP.le]
  rw [hfun, List.sum_map_mul_right]
  unfold averagePower
  field_simp

/-- The raw PAM constellation has positive power sum for `M >= 2`: its first
point is `-(M-1) /= 0`. -/
lemma pam_sum_pos (M : ℕ) (h : 2 ≤ M) :
    0 < ((pamPoints M).map Complex.normSq).sum := by
  have hM2 : (2 : ℝ) ≤ (M : ℝ) := by exact_mod_cast h
  unfold pamPoints
  rw [List.map_map]
  set f : ℕ → ℝ := Complex.normSq ∘ fun (i : ℕ) =>
    ((2 * (i : ℝ) - ((M : ℝ) - 1) : ℝ) : ℂ) with hf
  have hpos : 0 < f 0 := by
    rw [hf]
    simp only [Function.comp_apply, Complex.normSq_ofReal]
    push_cast
    nlinarith
  have hle : f 0 ≤ ((List.range M).map f).sum := by
    apply List.single_le_sum
    · intro x hx
      obtain ⟨k, _, rfl⟩ := List.mem_map.1 hx
      rw [hf]
      exact Complex.normSq_nonneg _
    · exact List.mem_map_of_mem f (List.mem_range.2 (by omega))
  exact lt_of_lt_of_le hpos hle

/-- Every PSK point has unit norm, so the power sum is the order `M`. -/
lemma psk_sum (M : ℕ) : ((pskPoints M).map Complex.normSq).sum = (M : ℝ) := by
  unfold pskPoints
  rw [List.map_map]
  have hone : ∀ k ∈ List.range M,
      (Complex.normSq ∘ fun (k : ℕ) =>
        Complex.exp ((2 * Real.pi * (k : ℝ) / (M : ℝ) : ℝ) * Complex.I)) k =
        (fun (_ : ℕ) => (1 : ℝ)) k := by
    intro k _
    simp only [Function.comp_apply, Complex.normSq_eq_abs,
      Complex.abs_exp_ofReal_mul_I, one_pow]
  rw [List.map_congr_left hone, List.map_const', List.sum_replicate,
    List.length_range, nsmul_eq_mul, mul_one]

/-- The raw QAM constellation has positive power sum when the side length is
at least 2: its corner point `(1-side)*(1+i)` is nonzero. -/
lemma qam_sum_pos (M : ℕ) (h2 : 2 ≤ Nat.sqrt M) :
    0 < ((qamPoints M).map Complex.normSq).sum := by
  have hs2 : (2 : ℝ) ≤ ((Nat.sqrt M : ℕ) : ℝ) := by exact_mod_cast h2
  set g : ℕ → ℕ → ℂ := fun (i : ℕ) (j : ℕ) =>
    ((2 * (i : ℝ) - ((Nat.sqrt M : ℝ) - 1) : ℝ) : ℂ)
      + ((2 * (j : ℝ) - ((Nat.sqrt M : ℝ) - 1) : ℝ) : ℂ) * Complex.I with hg
  have hqam : qamPoints M = (List.range (Nat.sqrt M)).flatMap
      (fun (i : ℕ) => (List.range (Nat.sqrt M)).map (g i)) := rfl
  have hmem : g 0 0 ∈ qamPoints M := by
    rw [hqam]
    exact List.mem_flatMap.2 ⟨0, List.mem_range.2 (by omega),
      List.mem_map_of_mem (g 0) (List.mem_range.2 (by omega))⟩
  have hpos : 0 < Complex.normSq (g 0 0) := by
    rw [hg]
    simp only [Complex.normSq_add_mul_I]
    push_cast
    nlinarith
  have hle : Complex.normSq (g 0 0) ≤ ((qamPoints M).map Complex.normSq).sum := by
    apply List.single_le_sum
    · intro x hx
      obtain ⟨z, _, rfl⟩ := List.mem_map.1 hx
      exact Complex.normSq_nonneg z
    · exact List.mem_map_of_mem Complex.normSq hmem
  exact lt_of_lt_of_le hpos hle

/-- C4: for every family and every valid order `M >= 2` (perfect square for
QAM, where generation succeeds), the constructed, normalized constellation
with uniform probabilities satisfies the unit-power invariant
`sum Q[i]*|X[i]|^2 = 1` exactly — hence within any `1e-6` relative error;
the embedding is a pure value, so the invariant cannot change afterwards. -/
theorem C4_unit_power_invariant (M : ℕ) (fam : Family) (X : List ℂ)
    (hM : 2 ≤ M) (hgen : generateConstellation M fam = Except.ok X) :
    averagePower (normalizeConstellation X M) M = 1 := by
  have hM0 : (M : ℝ) ≠ 0 := Nat.cast_ne_zero.mpr (by omega)
  cases fam with
  | PAM =>
      have hX : X = pamPoints M := by
        simpa [generateConstellation] using hgen.symm
      rw [hX]
      exact averagePower_normalize _ _ hM0 (pam_sum_pos M hM)
  | PSK =>
      have hX : X = pskPoints M := by
        simpa [generateConstellation] using hgen.symm
      rw [hX]
      apply averagePower_normalize _ _ hM0
      rw [psk_sum]
      have : (2 : ℝ) ≤ (M : ℝ) := by exact_mod_cast hM
      linarith
  | QAM =>
      unfold generateConstellation at hgen
      by_cases hsq : Nat.sqrt M * Nat.sqrt M = M
      · rw [if_pos hsq] at hgen
        have hX : X = qamPoints M := by
          simpa using hgen.symm
        rw [hX]
        apply averagePower_normalize _ _ hM0
        apply qam_sum_pos
        by_contra hlt
        push_neg at hlt
        interval_cases h : Nat.sqrt M <;> omega
      · rw [if_neg hsq] at hgen
        exact absurd hgen (by simp)

/-- Witness for C4: 2-PAM. -/
theorem C4_unit_power_invariant_witness :
    averagePower (normalizeConstellation (pamPoints 2) 2) 2 = 1 :=
  C4_unit_power_invariant 2 Family.PAM (pamPoints 2) (by norm_num) rfl

/-! ## C1 and C8 — evaluation of `E0Calculator.compute_E0` -/

/-- The normalized 2-PAM points are exactly `[-1, 1]`. -/
lemma pam2_normalized : normalizeConstellation (pamPoints 2) 2 = [(-1 : ℂ), 1] := by
  have h1 : pamPoints 2 = [(-1 : ℂ), 1] := by
    unfold pamPoints
    norm_num [List.range_succ]
  have h2 : averagePower [(-1 : ℂ), 1] 2 = 1 := by
    simp [averagePower]
  unfold normalizeConstellation
  rw [h1, h2]
  norm_num

/-- Explicit form of `pam2XQ`. -/
lemma pam2XQ_eq : pam2XQ = [((-1 : ℂ), (1/2 : ℝ)), ((1 : ℂ), (1/2 : ℝ))] := by
  rw [pam2XQ, pam2_normalized]
  norm_num [uniformQ, List.replicate]

/-- At `rho = 0` the inner quadrature sum of `compute_E0` on the 2-node grid
collapses to `sum_k w_k * exp(-|z_k|^2) = pi * exp(-1)`: every node of the
product of the 2-point Gauss-Hermite rule has `|z|^2 = 1`. -/
lemma innerSumGH_rho_zero_her2 (XQ : List (ℂ × ℝ)) (SNR : ℝ) (x : ℂ) :
    innerSumGH XQ SNR 0 (grid2D hermiteRule2) x = Real.pi * Real.exp (-1) := by
  have hhalf : Real.sqrt (1/2) ^ 2 = 1/2 := Real.sq_sqrt (by norm_num)
  have hpi : Real.sqrt Real.pi * Real.sqrt Real.pi = Real.pi :=
    Real.mul_self_sqrt Real.pi_nonneg
  simp only [innerSumGH, grid2D, hermiteRule2, List.flatMap_cons, List.flatMap_nil,
    List.map_cons, List.map_nil, List.append_nil, List.cons_append, List.nil_append,
    List.sum_cons, List.sum_nil, Real.rpow_zero, mul_one, Complex.normSq_add_mul_I]
  rw [show ((-Real.sqrt (1/2)) ^ 2 : ℝ) = Real.sqrt (1/2) ^ 2 by ring]
  rw [hhalf]
  norm_num
  ring_nf
  rw [Real.sq_sqrt Real.pi_nonneg]
  ring

/-- C1 (refuted): `E0Calculator.compute_E0` at `rho = 0` on valid input —
the normalized 2-PAM constellation with uniform probabilities, `SNR = 1`,
the 2-node Gauss-Hermite product grid — returns `1/ln 2 ≈ 1.4427`, which
exceeds `1`, far outside any floating tolerance of the required value `0`.
The source multiplies an explicit `exp(-|z|^2)` into the integrand although
the Gauss-Hermite weights already account for that factor, contradicting
its own docstring formula (for which `rho = 0` would give exactly `0`). -/
theorem C1_rho_zero_returns_nonzero :
    computeE0gh pam2XQ 1 0 (grid2D hermiteRule2) = 1 / Real.log 2 ∧
      1 < 1 / Real.log 2 := by
  constructor
  · simp only [computeE0gh]
    rw [pam2XQ_eq]
    simp only [List.map_cons, List.map_nil, List.sum_cons, List.sum_nil,
      innerSumGH_rho_zero_her2]
    have hc : Real.pi * Real.exp (-1) / Real.pi = Real.exp (-1) := by
      rw [mul_comm, mul_div_assoc, div_self Real.pi_ne_zero, mul_one]
    rw [hc, show (1/2 * Real.exp (-1) + (1/2 * Real.exp (-1) + 0) : ℝ) =
      Real.exp (-1) by ring, Real.log_exp]
    ring
  · have hl2 : 0 < Real.log 2 := Real.log_pos (by norm_num)
    rw [lt_div_iff₀ hl2, one_mul]
    exact lt_trans Real.log_two_lt_d9 (by norm_num)

/-- Evaluation `sqrt(1000000) = 1000`. -/
lemma sqrt_million : Real.sqrt 1000000 = 1000 := by
  rw [show (1000000 : ℝ) = 1000 ^ 2 by norm_num,
    Real.sqrt_sq (by norm_num : (0 : ℝ) ≤ 1000)]

/-- On the single node `z = 0` at `SNR = 10^6`, `rho = 1`, the inner
Bhattacharyya-style sum of `compute_E0` evaluates (unclamped) to
`1/2 + 1/2 * exp(-2000000)`: the cross term's exponent argument is
`-2000000`, far below `-500`. -/
lemma fValGH_big_eval (x : ℂ) (hx : x = -1 ∨ x = 1) :
    fValGH [((-1 : ℂ), (1/2 : ℝ)), ((1 : ℂ), (1/2 : ℝ))] 1000000 1
        (((0 : ℝ) : ℂ) + ((0 : ℝ) : ℂ) * Complex.I) x =
      1/2 + 1/2 * Real.exp (-2000000) := by
  have hz : (((0 : ℝ) : ℂ) + ((0 : ℝ) : ℂ) * Complex.I) = 0 := by simp
  rcases hx with rfl | rfl
  · rw [fValGH, hz, sqrt_million]
    simp only [List.map_cons, List.map_nil, List.sum_cons, List.sum_nil, add_zero]
    rw [show ((-1 : ℂ) - (-1)) = 0 by ring,
      show (((1000 : ℝ) : ℂ) * ((-1 : ℂ) - 1)) = ((-2000 : ℝ) : ℂ) by push_cast; ring]
    simp only [mul_zero, zero_add, add_zero, Complex.normSq_zero,
      Complex.normSq_ofReal]
    norm_num
  · rw [fValGH, hz, sqrt_million]
    simp only [List.map_cons, List.map_nil, List.sum_cons, List.sum_nil, add_zero]
    rw [show ((1 : ℂ) - 1) = 0 by ring,
      show (((1000 : ℝ) : ℂ) * ((1 : ℂ) - (-1))) = ((2000 : ℝ) : ℂ) by push_cast; ring]
    simp only [mul_zero, zero_add, add_zero, Complex.normSq_zero,
      Complex.normSq_ofReal]
    norm_num
    ring

/-- Clamped counterpart of `fValGH_big_eval`: the cross term's exponent is
clipped to `-500`. -/
lemma fValGHClamped_big_eval (x : ℂ) (hx : x = -1 ∨ x = 1) :
    fValGHClamped [((-1 : ℂ), (1/2 : ℝ)), ((1 : ℂ), (1/2 : ℝ))] 1000000 1
        (((0 : ℝ) : ℂ) + ((0 : ℝ) : ℂ) * Complex.I) x =
      1/2 + 1/2 * Real.exp (-500) := by
  have hz : (((0 : ℝ) : ℂ) + ((0 : ℝ) : ℂ) * Complex.I) = 0 := by simp
  have hclip0 : clip (-(Complex.normSq (0 : ℂ)) / (1 + 1)) (-500) 500 = 0 := by
    norm_num [clip]
  have hclipz : clip (Complex.normSq (0 : ℂ) / (1 + 1)) (-500) 500 = 0 := by
    norm_num [clip]
  rcases hx with rfl | rfl
  · rw [fValGHClamped, hz, sqrt_million]
    simp only [List.map_cons, List.map_nil, List.sum_cons, List.sum_nil, add_zero]
    rw [show ((-1 : ℂ) - (-1)) = 0 by ring,
      show (((1000 : ℝ) : ℂ) * ((-1 : ℂ) - 1)) = ((-2000 : ℝ) : ℂ) by push_cast; ring]
    simp only [mul_zero, zero_add, add_zero, Complex.normSq_zero,
      Complex.normSq_ofReal]
    norm_num [clip]
  · rw [fValGHClamped, hz, sqrt_million]
    simp only [List.map_cons, List.map_nil, List.sum_cons, List.sum_nil, add_zero]
    rw [show ((1 : ℂ) - 1) = 0 by ring,
      show (((1000 : ℝ) : ℂ) * ((1 : ℂ) - (-1))) = ((2000 : ℝ) : ℂ) by push_cast; ring]
    simp only [mul_zero, zero_add, add_zero, Complex.normSq_zero,
      Complex.normSq_ofReal]
    norm_num [clip]
    ring

/-- Full unclamped evaluation of `compute_E0` on 2-PAM, `SNR = 10^6`,
`rho = 1`, 1-node grid. -/
lemma computeE0gh_big :
    computeE0gh pam2XQ 1000000 1 (grid2D hermiteRule1) =
      -(Real.log (1/2 + 1/2 * Real.exp (-2000000)) / Real.log 2) := by
  have hπ : Real.pi ≠ 0 := Real.pi_ne_zero
  have hc : ∀ a : ℝ, Real.pi * a / Real.pi = a := fun a => by
    rw [mul_comm, mul_div_assoc, div_self hπ, mul_one]
  have hgrid : grid2D hermiteRule1 =
      [((((0 : ℝ) : ℂ) + ((0 : ℝ) : ℂ) * Complex.I),
        Real.sqrt Real.pi * Real.sqrt Real.pi)] := rfl
  have hz : Complex.normSq (((0 : ℝ) : ℂ) + ((0 : ℝ) : ℂ) * Complex.I) = 0 := by
    simp
  simp only [computeE0gh]
  rw [pam2XQ_eq, hgrid]
  simp only [innerSumGH, List.map_cons, List.map_nil, List.sum_cons, List.sum_nil,
    add_zero, Real.rpow_one]
  rw [fValGH_big_eval (-1) (Or.inl rfl), fValGH_big_eval 1 (Or.inr rfl), hz,
    Real.mul_self_sqrt Real.pi_nonneg]
  simp only [neg_zero, Real.exp_zero, one_mul]
  rw [hc]
  rw [show (1/2 * (1/2 + 1/2 * Real.exp (-2000000)) +
    1/2 * (1/2 + 1/2 * Real.exp (-2000000)) : ℝ) =
    1/2 + 1/2 * Real.exp (-2000000) by ring]

/-- Full clamped evaluation on the same input: the clipped exponent gives
`exp(-500)` instead of `exp(-2000000)`. -/
lemma computeE0ghClamped_big :
    computeE0ghClamped pam2XQ 1000000 1 (grid2D hermiteRule1) =
      -(Real.log (1/2 + 1/2 * Real.exp (-500)) / Real.log 2) := by
  have hπ : Real.pi ≠ 0 := Real.pi_ne_zero
  have hc : ∀ a : ℝ, Real.pi * a / Real.pi = a := fun a => by
    rw [mul_comm, mul_div_assoc, div_self hπ, mul_one]
  have hgrid : grid2D hermiteRule1 =
      [((((0 : ℝ) : ℂ) + ((0 : ℝ) : ℂ) * Complex.I),
        Real.sqrt Real.pi * Real.sqrt Real.pi)] := rfl
  have hz : Complex.normSq (((0 : ℝ) : ℂ) + ((0 : ℝ) : ℂ) * Complex.I) = 0 := by
    simp
  have hclip : clip (-(0 : ℝ)) (-500) 500 = 0 := by norm_num [clip]
  simp only [computeE0ghClamped]
  rw [pam2XQ_eq, hgrid]
  simp only [innerSumGHClamped, List.map_cons, List.map_nil, List.sum_cons,
    List.sum_nil, add_zero, Real.rpow_one]
  rw [fValGHClamped_big_eval (-1) (Or.inl rfl), fValGHClamped_big_eval 1 (Or.inr rfl),
    hz, hclip, Real.mul_self_sqrt Real.pi_nonneg]
  simp only [Real.exp_zero, one_mul]
  rw [hc]
  rw [show (1/2 * (1/2 + 1/2 * Real.exp (-500)) +
    1/2 * (1/2 + 1/2 * Real.exp (-500)) : ℝ) =
    1/2 + 1/2 * Real.exp (-500) by ring]

/-- The unclamped and clamped evaluations differ: clamping strictly raises
the Bhattacharyya sum, so it strictly lowers the reported `E0`. -/
lemma computeE0gh_clamp_gap :
    computeE0ghClamped pam2XQ 1000000 1 (grid2D hermiteRule1) <
      computeE0gh pam2XQ 1000000 1 (grid2D hermiteRule1) := by
  rw [computeE0gh_big, computeE0ghClamped_big]
  have h1 : (0 : ℝ) < 1/2 + 1/2 * Real.exp (-2000000) := by positivity
  have hlt : (1/2 + 1/2 * Real.exp (-2000000) : ℝ) < 1/2 + 1/2 * Real.exp (-500) := by
    have := Real.exp_lt_exp.mpr (show (-2000000 : ℝ) < -500 by norm_num)
    linarith
  have hlog : Real.log (1/2 + 1/2 * Real.exp (-2000000)) <
      Real.log (1/2 + 1/2 * Real.exp (-500)) := Real.log_lt_log h1 hlt
  have hl2 : 0 < Real.log 2 := Real.log_pos (by norm_num)
  have hdiv : Real.log (1/2 + 1/2 * Real.exp (-2000000)) / Real.log 2 <
      Real.log (1/2 + 1/2 * Real.exp (-500)) / Real.log 2 := by
    gcongr
  linarith

/-- Counterexample to C8 as stated: `E0Calculator.compute_E0` applies `exp`
to the raw exponent `-2000000` with no clamping; its value on 2-PAM at
`SNR = 10^6`, `rho = 1` differs from what the fully clamped evaluation
would return, so not every `evaluateE0` computation clamps its exponents. -/
theorem C8_counterexample_unclamped :
    computeE0gh pam2XQ 1000000 1 (grid2D hermiteRule1) ≠
      computeE0ghClamped pam2XQ 1000000 1 (grid2D hermiteRule1) :=
  computeE0gh_clamp_gap.ne'

/-- C8 amended: `np.clip` does confine every clamped exponent argument to
`[-500, 500]` — this is how the comparison-script evaluators
(`E0_general_gauss_hermite` and relatives) guard their `exp` calls — but
`E0Calculator.compute_E0` performs no clamping at all, and on an
overflow-prone input its value differs strictly from the clamped one. -/
theorem C8_clip_bounds_and_unclamped_code :
    (∀ d : ℝ, -500 ≤ clip d (-500) 500 ∧ clip d (-500) 500 ≤ 500) ∧
      computeE0ghClamped pam2XQ 1000000 1 (grid2D hermiteRule1) <
        computeE0gh pam2XQ 1000000 1 (grid2D hermiteRule1) :=
  ⟨fun d => ⟨le_min (le_max_right d (-500)) (by norm_num), min_le_right _ _⟩,
    computeE0gh_clamp_gap⟩

end EPCalc
